import Mathlib

/-!
Shallow embedding of the scrape-orchestration engine in `src/app.py`
(Google Maps business scraper).

Conventions of the embedding:
* Python strings are Lean `String`s; Python `float` values produced by
  parsing decimal text are modelled as exact rationals (`ℚ`), which captures
  the parsing logic the claims are about.
* The Python `set` of seen identity keys is modelled as a `List` with a
  membership check before insertion (same observable behaviour).
* Driver reads that can find no element are modelled with `Option`:
  `none` stands for "no matching element".  Per the Playwright API,
  `Locator.inner_text` / `Locator.get_attribute` auto-wait for the element
  and raise `TimeoutError` when it never appears, so an absent element is a
  raised exception, modelled with `Except Unit`; a present element with an
  absent attribute makes `get_attribute` return `None` without raising.
* Stateful loops become structurally recursive functions; the inner
  scroll/harvest loop of `scrape_businesses` has no a-priori termination
  argument, so it is given fuel and returns `none` when the fuel runs out
  (i.e. `none` = the Python loop has not terminated within that many
  iterations).
-/

/-- The `Business` dataclass (src/app.py lines 20-30).  `name` defaults to
`None` in the source, hence `Option String`; coordinates are optional. -/
structure Business where
  name : Option String := none
  address : String := "No Address"
  website : String := "No Website"
  phone_number : String := "No Phone"
  reviews_count : Nat := 0
  reviews_average : ℚ := 0
  latitude : Option ℚ := none
  longitude : Option ℚ := none
  deriving DecidableEq, Repr

/-- The deduplication tuple `(business.name, business.address,
business.phone_number)` built in `add_business` (line 58). -/
def identityKey (b : Business) : Option String × String × String :=
  (b.name, b.address, b.phone_number)

/-- The `BusinessList` dataclass (lines 32-37): the accepted records and the
set of seen identity keys (the Python `set` is modelled as a list that is
only grown after a membership test). -/
structure BusinessList where
  business_list : List Business := []
  seen_businesses : List (Option String × String × String) := []
  deriving DecidableEq, Repr

/-- The fresh `BusinessList()` built at line 84. -/
def emptyBusinessList : BusinessList := {}

/-- Method `BusinessList.add_business` (lines 56-63): if the key was not seen,
record the key, append the business and return `True`; otherwise return
`False` and change nothing. -/
def add_business (bl : BusinessList) (b : Business) : Bool × BusinessList :=
  let key := identityKey b
  if key ∈ bl.seen_businesses then
    (false, bl)
  else
    (true, { bl with
              seen_businesses := key :: bl.seen_businesses,
              business_list := bl.business_list ++ [b] })

/-- Offer a whole sequence of records to a store, keeping only the state. -/
def runAddsFrom (bl : BusinessList) (bs : List Business) : BusinessList :=
  bs.foldl (fun s b => (add_business s b).2) bl

/-- One run's worth of offers starting from the fresh store. -/
def runAdds (bs : List Business) : BusinessList :=
  runAddsFrom emptyBusinessList bs

/-- The store invariant: every accepted record's key is in the seen set,
and accepted keys are pairwise distinct. -/
def StoreInv (bl : BusinessList) : Prop :=
  (∀ b ∈ bl.business_list, identityKey b ∈ bl.seen_businesses) ∧
    (bl.business_list.map identityKey).Nodup

/-! ### Python string primitives

The code uses `str.split`, `str.replace` and `str.strip`.  They are
embedded here as structurally recursive functions on character lists (with
the list length as fuel, so that the kernel can evaluate them on concrete
inputs); the semantics is Python's: `split` on a non-empty separator keeps
empty pieces, `replace` rewrites non-overlapping occurrences left to
right, `strip` removes leading and trailing whitespace. -/

/-- Splitter for Python `str.split(sep)` with non-empty `sep`, on char
lists; `fuel` bounds the number of examined characters. -/
def splitSeq (sep : List Char) : Nat → List Char → List (List Char)
  | _, [] => [[]]
  | 0, cs => [cs]
  | fuel + 1, c :: cs =>
    if sep.isPrefixOf (c :: cs) then
      [] :: splitSeq sep fuel (List.drop sep.length (c :: cs))
    else
      match splitSeq sep fuel cs with
      | [] => [[c]]
      | p :: ps => (c :: p) :: ps

/-- Python `s.split(sep)` (the code only calls it with non-empty
separators; an empty separator is a `ValueError` in Python and is mapped
to the trivial split here). -/
def pySplit (s sep : String) : List String :=
  if sep = "" then [s]
  else (splitSeq sep.data s.data.length s.data).map fun cs => ⟨cs⟩

/-- Rewriter for Python `str.replace(pat, repl)` with non-empty `pat`. -/
def replaceSeq (pat repl : List Char) : Nat → List Char → List Char
  | _, [] => []
  | 0, cs => cs
  | fuel + 1, c :: cs =>
    if pat.isPrefixOf (c :: cs) then
      repl ++ replaceSeq pat repl fuel (List.drop pat.length (c :: cs))
    else
      c :: replaceSeq pat repl fuel cs

/-- Python `s.replace(pat, repl)` (identity on the empty pattern, which
the code never uses). -/
def pyReplace (s pat repl : String) : String :=
  if pat = "" then s
  else ⟨replaceSeq pat.data repl.data s.data.length s.data⟩

/-- Python `s.strip()`: drop leading and trailing whitespace. -/
def pyStrip (s : String) : String :=
  ⟨((s.data.dropWhile Char.isWhitespace).reverse.dropWhile Char.isWhitespace).reverse⟩

/-- Numeric value of a digit run. -/
def digitsVal (ds : List Char) : Nat :=
  ds.foldl (fun a c => a * 10 + (c.toNat - 48)) 0

/-! ### Regex token extraction

Lines 136 and 141 use `re.search` with the patterns `(\d+\.\d+|\d+)` and
`(\d+)`.  `re.search` returns the leftmost match; for these patterns that
is: starting at the first digit of the string, the maximal digit run,
extended by `.` and a further maximal digit run when the character right
after the run is a dot followed by at least one digit (the alternative
`\d+\.\d+` is preferred and cannot match with a shorter first run, since
every proper prefix of a digit run is followed by a digit, not a dot). -/

/-- First match of `(\d+\.\d+|\d+)` in the char list, as a rational. -/
def firstNumToken : List Char → Option ℚ
  | [] => none
  | c :: cs =>
    if c.isDigit then
      let intPart := c :: cs.takeWhile Char.isDigit
      match cs.dropWhile Char.isDigit with
      | '.' :: r =>
        let frac := r.takeWhile Char.isDigit
        if frac = [] then some (digitsVal intPart)
        else some (mkRat (digitsVal (intPart ++ frac)) (10 ^ frac.length))
      | _ => some (digitsVal intPart)
    else firstNumToken cs

/-- First match of `(\d+)` in the char list, as a natural number. -/
def firstIntToken : List Char → Option Nat
  | [] => none
  | c :: cs =>
    if c.isDigit then some (digitsVal (c :: cs.takeWhile Char.isDigit))
    else firstIntToken cs

/-- Lines 134-137: given the value of the rating element's `aria-label`
attribute (`none` when the attribute is absent, which makes
`get_attribute` return `None` without raising), compute
`business.reviews_average`: commas are replaced by dots, the first
`(\d+\.\d+|\d+)` token is taken, and a falsy (`None`/empty) label or a
label with no token keeps the default `0.0`. -/
def parseReviewsAverage (reviewsAvg : Option String) : ℚ :=
  match reviewsAvg with
  | none => 0
  | some s =>
    if s = "" then 0
    else
      match firstNumToken (pyReplace s "," ".").data with
      | some q => q
      | none => 0

/-- Lines 139-142: given the inner text of the reviews-count element,
compute `business.reviews_count`: commas are stripped, the first `(\d+)`
token is taken, and empty text or text with no token keeps the default
`0`. -/
def parseReviewsCount (reviewsCount : String) : Nat :=
  if reviewsCount = "" then 0
  else
    match firstIntToken (pyReplace reviewsCount "," "").data with
    | some n => n
    | none => 0

/-- Unsigned part of Python's `float(str)` grammar restricted to plain
decimals: digits with an optional fractional part (`"40.7128"`, `".5"`,
`"5."`); anything else — in particular any trailing non-digit — is a
`ValueError`, i.e. `none`.  (Exponents, `inf`/`nan` and underscore
grouping, which `float` also accepts, never occur in the strings this
development evaluates.) -/
def parseUnsignedDecimal (cs : List Char) : Option ℚ :=
  let intPart := cs.takeWhile Char.isDigit
  match cs.dropWhile Char.isDigit with
  | [] => if intPart = [] then none else some (digitsVal intPart)
  | '.' :: r =>
    let frac := r.takeWhile Char.isDigit
    if r.dropWhile Char.isDigit ≠ [] then none
    else if intPart = [] ∧ frac = [] then none
    else some (mkRat (digitsVal (intPart ++ frac)) (10 ^ frac.length))
  | _ => none

/-- Python `float(str)` on the decimal subset: surrounding whitespace is
ignored and an optional sign is allowed; `none` models a raised
`ValueError`. -/
def pyFloat? (s : String) : Option ℚ :=
  match (pyStrip s).data with
  | '-' :: cs => (parseUnsignedDecimal cs).map fun q => -q
  | '+' :: cs => parseUnsignedDecimal cs
  | cs => parseUnsignedDecimal cs

/-- Function `extract_coordinates_from_url` (lines 65-71):
`url.split('/@')[-1].split('/')[0]` is the coordinate segment; its first
two comma-separated fields are parsed with `float`, and an `IndexError`
(fewer than two fields) or `ValueError` (non-numeric field) yields
`(None, None)`. -/
def extract_coordinates_from_url (url : String) : Option ℚ × Option ℚ :=
  let coordinates := (pySplit ((pySplit url "/@").getLastD "") "/").headD ""
  match pySplit coordinates "," with
  | a :: b :: _ =>
    match pyFloat? a, pyFloat? b with
    | some x, some y => (some x, some y)
    | _, _ => (none, none)
  | _ => (none, none)

/-- Function `clean_business_name` (lines 73-75): drop the `" · Visited link"`
suffix token and strip whitespace. -/
def clean_business_name (name : String) : String :=
  pyStrip (pyReplace name " · Visited link" "")

/-- Python `x or default` on strings: the default is taken exactly when
`x` is falsy, i.e. the empty string. -/
def pyOrDefault (s d : String) : String :=
  if s = "" then d else s

/-- The DOM data observable for one focused listing (the reads of lines
128-144).  For the elements read with `inner_text` / `get_attribute`,
`none` means no matching element exists: per the Playwright API both calls
auto-wait for the element and raise `TimeoutError` when it never appears.
`avgElem = some a` is a present rating element whose `aria-label`
attribute value is `a` (`get_attribute` returns `None` — inner `none` —
when the element exists but the attribute is absent, without raising).
`url` is `page.url` at read time. -/
structure ListingView where
  ariaLabel : Option String := none
  addressElem : Option String := none
  websiteElem : Option String := none
  phoneElem : Option String := none
  avgElem : Option (Option String) := none
  countElem : Option String := none
  url : String := ""
  deriving DecidableEq, Repr

/-- Lines 128-144: build the `Business` record for one focused listing, in
the source's evaluation order.  `name` falls back to `"Unknown"` when the
`aria-label` is `None` or empty (Python `or`); each of address, website
and phone is `inner_text() or "No X"`, so an empty text defaults but an
absent element raises (`Except.error`, uncaught in `scrape_businesses`);
the rating label and count text feed the review parsers; coordinates come
from the page URL. -/
def extractBusiness (v : ListingView) : Except Unit Business := do
  let name := clean_business_name (pyOrDefault (v.ariaLabel.getD "") "Unknown")
  let address ← match v.addressElem with
    | none => Except.error ()
    | some t => Except.ok (pyOrDefault t "No Address")
  let website ← match v.websiteElem with
    | none => Except.error ()
    | some t => Except.ok (pyOrDefault t "No Website")
  let phone ← match v.phoneElem with
    | none => Except.error ()
    | some t => Except.ok (pyOrDefault t "No Phone")
  let avg ← match v.avgElem with
    | none => Except.error ()
    | some lbl => Except.ok (parseReviewsAverage lbl)
  let cnt ← match v.countElem with
    | none => Except.error ()
    | some t => Except.ok (parseReviewsCount t)
  let coords := extract_coordinates_from_url v.url
  Except.ok { name := some name, address := address, website := website,
              phone_number := phone, reviews_count := cnt,
              reviews_average := avg, latitude := coords.1,
              longitude := coords.2 }

/-- A record all of whose identity-key fields took their defaults. -/
def fullyDefaulted (b : Business) : Prop :=
  b.name = some "Unknown" ∧ b.address = "No Address" ∧ b.phone_number = "No Phone"

/-- One line of the destination CSV file: the header line or one record
row. -/
inductive CsvLine where
  | header
  | row (b : Business)
  deriving DecidableEq, Repr

/-- Method `save_to_csv` (lines 45-54) acting on the destination file's state
(`none` = the file does not exist): `mode = 'a' if append else 'w'`; when
`append` is set and the file exists, the dataframe's rows are appended
with `header=False`; otherwise the dataframe is written with
`header=True` (mode `'a'` creates the missing file, mode `'w'` truncates
an existing one). -/
def save_to_csv (fileState : Option (List CsvLine)) (rows : List Business)
    (append : Bool) : List CsvLine :=
  match append, fileState with
  | true, some content => content ++ rows.map CsvLine.row
  | true, none => CsvLine.header :: rows.map CsvLine.row
  | false, _ => CsvLine.header :: rows.map CsvLine.row

/-- A run's sequence of per-category flushes, every one an append-mode
`save_to_csv` to the same destination file. -/
def flushSeq (batches : List (List Business)) (fs : Option (List CsvLine)) :
    Option (List CsvLine) :=
  batches.foldl (fun s bs => some (save_to_csv s bs true)) fs

/-- A `(city, state_id)` pair from the uploaded location list. -/
abbrev Location := String × String

/-- What the environment does for one search attempt (lines 104-117):
either one of the driver calls of the search phase times out
(`PlaywrightTimeoutError`, caught at line 110), or the search succeeds
with `count` matching result anchors (line 114) and a results panel whose
scroll-iteration `i` shows the listing views `(pag i).1` and, after that
iteration's scroll, end-of-list-banner visibility `(pag i).2`
(lines 120/154). -/
inductive SearchOutcome where
  | timeout
  | results (count : Nat) (pag : Nat → List ListingView × Bool)

/-- The for-loop over currently visible listings (lines 121-151): stop as
soon as the quota is met; otherwise click/extract the listing (a raised
extraction error propagates) and offer the record to the store,
incrementing the scraped count exactly when it is accepted. -/
def harvestListings (quota : Nat) :
    List ListingView → Nat → BusinessList → Except Unit (Nat × BusinessList)
  | [], scraped, bl => Except.ok (scraped, bl)
  | v :: rest, scraped, bl =>
    if quota ≤ scraped then Except.ok (scraped, bl)
    else
      match extractBusiness v with
      | Except.error e => Except.error e
      | Except.ok b =>
        let r := add_business bl b
        harvestListings quota rest (if r.1 then scraped + 1 else scraped) r.2

/-- The scroll-and-harvest while-loop (lines 119-155), one `fuel` unit per
iteration (`none` = the Python loop has not terminated within `fuel`
iterations): while the quota is unmet, harvest the visible listings, then
scroll and stop if the end-of-list banner is visible. -/
def pagLoop (quota : Nat) (pag : Nat → List ListingView × Bool) :
    Nat → Nat → Nat → BusinessList → Option (Except Unit (Nat × BusinessList))
  | 0, _, _, _ => none
  | fuel + 1, i, scraped, bl =>
    if quota ≤ scraped then some (Except.ok (scraped, bl))
    else
      match harvestListings quota (pag i).1 scraped bl with
      | Except.error e => some (Except.error e)
      | Except.ok (scraped', bl') =>
        if (pag i).2 then some (Except.ok (scraped', bl'))
        else pagLoop quota pag fuel (i + 1) scraped' bl'

/-- Python `list.remove(v)`: delete the first occurrence of the value
(line 100; the value was just drawn from the list, so it is present). -/
def removeFirst : List Location → Location → List Location
  | [], _ => []
  | x :: xs, v => if x = v then xs else x :: removeFirst xs v

/-- Final state of one category's location loop.  `drawn` and `k` are
instrumentation, not source state: `drawn` records the locations drawn, in
order, and `k` is the position in the random oracle after the loop. -/
structure CatResult where
  scraped : Nat
  store : BusinessList
  pool : List Location
  drawn : List Location
  k : Nat

/-- Call `random.choice(cities_states_copy)` (line 99) on a non-empty pool,
with the random draw supplied by the oracle value `oracle k`: pick the
element at index `oracle k` modulo the pool's length. -/
def chooseLoc (oracle : Nat → Nat) (k : Nat) (x : Location)
    (rest : List Location) : Location :=
  (x :: rest).get
    ⟨oracle k % (x :: rest).length, Nat.mod_lt _ (Nat.succ_pos rest.length)⟩

/-- The per-category while-loop (lines 98-155):
`while listings_scraped < num_listings and cities_states_copy:` draw a
location at random (`oracle k` indexes the remaining pool, modelling
`random.choice`), remove it (`list.remove`), and run one search: a
search-phase timeout or an empty result count skips to the next location;
otherwise the scroll loop runs (its raised extraction errors propagate,
its fuel exhaustion yields `none`).  `outerFuel` is a modelling device
only: the pool shrinks every iteration, so `outerFuel ≥ pool.length + 1`
always suffices. -/
def categoryLoop (search : Location → SearchOutcome) (oracle : Nat → Nat)
    (quota fuel : Nat) :
    Nat → List Location → Nat → BusinessList → Nat → List Location →
    Option (Except Unit CatResult)
  | 0, _, _, _, _, _ => none
  | outerFuel + 1, pool, scraped, bl, k, drawn =>
    if quota ≤ scraped then some (Except.ok ⟨scraped, bl, pool, drawn, k⟩)
    else
      match pool with
      | [] => some (Except.ok ⟨scraped, bl, [], drawn, k⟩)
      | x :: rest =>
        match search (chooseLoc oracle k x rest) with
        | SearchOutcome.timeout =>
          categoryLoop search oracle quota fuel outerFuel
            (removeFirst (x :: rest) (chooseLoc oracle k x rest)) scraped bl
            (k + 1) (drawn ++ [chooseLoc oracle k x rest])
        | SearchOutcome.results 0 _ =>
          categoryLoop search oracle quota fuel outerFuel
            (removeFirst (x :: rest) (chooseLoc oracle k x rest)) scraped bl
            (k + 1) (drawn ++ [chooseLoc oracle k x rest])
        | SearchOutcome.results (_ + 1) pag =>
          match pagLoop quota pag fuel 0 scraped bl with
          | none => none
          | some (Except.error e) => some (Except.error e)
          | some (Except.ok (scraped', bl')) =>
            categoryLoop search oracle quota fuel outerFuel
              (removeFirst (x :: rest) (chooseLoc oracle k x rest)) scraped' bl'
              (k + 1) (drawn ++ [chooseLoc oracle k x rest])

/-- The whole of `scrape_businesses` (lines 82-162): one shared store and
destination file across the categories; for each category the location
pool is a fresh copy of the uploaded list (line 96) and the scraped count
restarts at zero (line 95); after a category, a non-empty accepted buffer
is flushed in append mode and cleared (lines 157-159); the value returned
at line 162 is the final buffer's rows (the dataframe), paired here with
the final file state. -/
def scrapeRun (env : String → Location → SearchOutcome) (oracle : Nat → Nat)
    (quota fuel outerFuel : Nat) (pool0 : List Location) :
    List String → BusinessList → Option (List CsvLine) → Nat →
    Option (Except Unit (List Business × Option (List CsvLine)))
  | [], bl, fs, _ => some (Except.ok (bl.business_list, fs))
  | cat :: cats, bl, fs, k =>
    match categoryLoop (env cat) oracle quota fuel outerFuel pool0 0 bl k [] with
    | none => none
    | some (Except.error e) => some (Except.error e)
    | some (Except.ok r) =>
      if r.store.business_list = [] then
        scrapeRun env oracle quota fuel outerFuel pool0 cats r.store fs r.k
      else
        scrapeRun env oracle quota fuel outerFuel pool0 cats
          { r.store with business_list := [] }
          (some (save_to_csv fs r.store.business_list true)) r.k

/-- A listing view with every read available. -/
def vDup : ListingView :=
  { ariaLabel := some "Dup Cafe", addressElem := some "1 Main St",
    websiteElem := some "dup.example", phoneElem := some "555-0100",
    avgElem := some (some "4.5 stars"), countElem := some "10 reviews",
    url := "https://www.google.com/maps/place/Dup/@40.1,-74.1,15z" }

/-- The record `vDup` extracts to. -/
def bDup : Business :=
  { name := some "Dup Cafe", address := "1 Main St", website := "dup.example",
    phone_number := "555-0100", reviews_count := 10,
    reviews_average := mkRat 9 2, latitude := some (mkRat 401 10),
    longitude := some (-(mkRat 741 10)) }

/-- A results panel that forever shows the same single listing and never
shows the end-of-list banner. -/
def stagnantPanel : Nat → List ListingView × Bool := fun _ => ([vDup], false)

/-- A results panel with no listings whose end-of-list banner is visible
immediately. -/
def pagEndsNow : Nat → List ListingView × Bool := fun _ => ([], true)

/-- A focused listing whose detail-panel elements are all absent, so the
very first field read raises. -/
def vBroken : ListingView := { ariaLabel := some "Broken Bar" }

/-- Every listing view the environment can ever show extracts without
raising (no absent detail element). -/
def ExtractableViews (search : Location → SearchOutcome) : Prop :=
  ∀ loc n pag i v, search loc = SearchOutcome.results n pag →
    v ∈ (pag i).1 → (extractBusiness v).isOk = true

theorem add_business_mem (bl : BusinessList) (b : Business)
    (h : identityKey b ∈ bl.seen_businesses) :
    add_business bl b = (false, bl) := by
  simp [add_business, h]

theorem add_business_not_mem (bl : BusinessList) (b : Business)
    (h : identityKey b ∉ bl.seen_businesses) :
    add_business bl b =
      (true, { bl with
                seen_businesses := identityKey b :: bl.seen_businesses,
                business_list := bl.business_list ++ [b] }) := by
  simp [add_business, h]

theorem seen_add_business (bl : BusinessList) (b : Business) (k) :
    k ∈ (add_business bl b).2.seen_businesses ↔
      k = identityKey b ∨ k ∈ bl.seen_businesses := by
  by_cases h : identityKey b ∈ bl.seen_businesses
  · simp only [add_business_mem bl b h]
    constructor
    · exact Or.inr
    · rintro (rfl | h') <;> [exact h; exact h']
  · simp [add_business_not_mem bl b h]

theorem seen_runAddsFrom (bs : List Business) (bl : BusinessList) (k) :
    k ∈ (runAddsFrom bl bs).seen_businesses ↔
      k ∈ bl.seen_businesses ∨ k ∈ bs.map identityKey := by
  induction bs generalizing bl with
  | nil => simp [runAddsFrom]
  | cons b bs ih =>
    have hstep : runAddsFrom bl (b :: bs) = runAddsFrom (add_business bl b).2 bs := rfl
    rw [hstep, ih, seen_add_business]
    simp only [List.map_cons, List.mem_cons]
    tauto

theorem storeInv_empty : StoreInv emptyBusinessList := by
  constructor <;> simp [emptyBusinessList]

theorem storeInv_add (bl : BusinessList) (b : Business) (h : StoreInv bl) :
    StoreInv (add_business bl b).2 := by
  by_cases hk : identityKey b ∈ bl.seen_businesses
  · rw [add_business_mem bl b hk]; exact h
  · rw [add_business_not_mem bl b hk]
    refine ⟨?_, ?_⟩
    · intro x hx
      simp only [List.mem_append, List.mem_singleton] at hx
      rcases hx with hx | rfl
      · exact List.mem_cons_of_mem _ (h.1 x hx)
      · exact List.mem_cons_self _ _
    · simp only [List.map_append, List.map_cons, List.map_nil]
      rw [List.nodup_append]
      refine ⟨h.2, List.nodup_singleton _, ?_⟩
      intro k hk1 hk2
      simp only [List.mem_singleton] at hk2
      subst hk2
      rcases List.mem_map.mp hk1 with ⟨x, hx, hxk⟩
      exact hk (hxk ▸ h.1 x hx)

theorem storeInv_runAddsFrom (bs : List Business) (bl : BusinessList)
    (h : StoreInv bl) : StoreInv (runAddsFrom bl bs) := by
  induction bs generalizing bl with
  | nil => exact h
  | cons b bs ih =>
    have hstep : runAddsFrom bl (b :: bs) = runAddsFrom (add_business bl b).2 bs := rfl
    rw [hstep]
    exact ih _ (storeInv_add bl b h)

theorem storeInv_runAdds (bs : List Business) : StoreInv (runAdds bs) :=
  storeInv_runAddsFrom bs emptyBusinessList storeInv_empty

/-- C1: within one run (a fold of `add_business` from the fresh store over
any sequence of offered records): (1) no two accepted records share an
identity key — the accepted list's keys are pairwise distinct; (2) a call
whose `(name, address, phone_number)` key has not occurred before returns
`True` and appends the record while recording the key; (3) a call whose key
has already occurred — i.e. is in the seen set — returns `False` and leaves
the whole store (accepted list and seen set) unchanged; the seen set after
the run contains exactly the keys offered, so the very first occurrence of
a key is accepted and every subsequent identical record is rejected. -/
theorem dedup_store_no_duplicate_keys :
    (∀ bs : List Business, ((runAdds bs).business_list.map identityKey).Nodup) ∧
    (∀ bl b, identityKey b ∉ bl.seen_businesses →
      add_business bl b =
        (true, { bl with
                  seen_businesses := identityKey b :: bl.seen_businesses,
                  business_list := bl.business_list ++ [b] })) ∧
    (∀ bl b, identityKey b ∈ bl.seen_businesses →
      add_business bl b = (false, bl)) ∧
    (∀ bs b, (add_business (runAdds bs) b).1 = true ↔
      identityKey b ∉ bs.map identityKey) := by
  refine ⟨fun bs => (storeInv_runAdds bs).2, add_business_not_mem, add_business_mem, ?_⟩
  intro bs b
  have hseen : identityKey b ∈ (runAdds bs).seen_businesses ↔
      identityKey b ∈ bs.map identityKey := by
    rw [runAdds, seen_runAddsFrom]
    simp [emptyBusinessList]
  by_cases h : identityKey b ∈ (runAdds bs).seen_businesses
  · rw [add_business_mem _ _ h]
    simpa using hseen.mp h
  · rw [add_business_not_mem _ _ h]
    simpa using fun hmem => h (hseen.mpr hmem)

/-- Witness for C1 at concrete inputs: the record offered twice is accepted
once, and the replay returns `False` on a store that already saw its key. -/
theorem dedup_store_no_duplicate_keys_witness :
    identityKey { name := some "A" } ∈ (runAdds [{ name := some "A" }]).seen_businesses ∧
    add_business (runAdds [{ name := some "A" }]) { name := some "A" } =
      (false, runAdds [{ name := some "A" }]) := by
  refine ⟨by decide, ?_⟩
  exact dedup_store_no_duplicate_keys.2.2.1 (runAdds [{ name := some "A" }])
    { name := some "A" } (by decide)

/-- C7: review parsing — the comma-decimal label `"4,5 stars"` yields the
average `4.5`; the count text `"1,234 reviews"` yields `1234` with the
thousands separator stripped; an absent label (`None`), an empty label or
text, and a label or text with no numeric token all keep the defaults
`0.0` and `0`. -/
theorem review_parsing_tokens :
    parseReviewsAverage (some "4,5 stars") = 9 / 2 ∧
    parseReviewsCount "1,234 reviews" = 1234 ∧
    parseReviewsAverage none = 0 ∧
    parseReviewsAverage (some "") = 0 ∧
    parseReviewsAverage (some "stars") = 0 ∧
    parseReviewsCount "" = 0 ∧
    parseReviewsCount "no reviews yet" = 0 := by
  refine ⟨?_, by decide, rfl, by decide, by decide, by decide, by decide⟩
  have h : parseReviewsAverage (some "4,5 stars") = mkRat 9 2 := by decide
  rw [h]
  norm_num [mkRat, Rat.normalize]

/-- C6 counterexample: the input `"12,34"` contains no `@` at all, yet
`extract_coordinates_from_url` returns `(12.0, 34.0)`, not `(None, None)`:
with no `/@` marker the whole string is taken as the candidate segment and
its leading comma fields are parsed. -/
theorem extract_coordinates_no_at_counterexample :
    extract_coordinates_from_url "12,34" = (some 12, some 34) ∧
    ("12,34".data.contains '@') = false := by
  exact ⟨by decide, by decide⟩

/-- C6 (amended): `extract_coordinates_from_url` never raises and always
returns either a full pair or `(None, None)`; a URL whose last
`/@`-segment begins with `lat,lng` yields that float pair; a URL with a
missing comma component or a non-numeric token yields `(None, None)`; and
a URL with no `/@` marker is parsed as though everything before its first
`/` were the coordinate segment — which yields `(None, None)` for ordinary
URLs (the prefix `https:` is not numeric) but not for every `@`-free
string. -/
theorem extract_coordinates_amended :
    extract_coordinates_from_url
        "https://www.google.com/maps/place/X/@40.7128,-74.0060,15z/data" =
      (some (407128 / 10000), some (-(740060 / 10000))) ∧
    extract_coordinates_from_url "https://www.google.com/maps" = (none, none) ∧
    extract_coordinates_from_url "https://www.google.com/maps/@40.7128z,-74.0060,15z" =
      (none, none) ∧
    extract_coordinates_from_url "https://www.google.com/maps/@40.7128" = (none, none) ∧
    (∀ url, extract_coordinates_from_url url = (none, none) ∨
      ∃ x y, extract_coordinates_from_url url = (some x, some y)) := by
  refine ⟨?_, by decide, by decide, by decide, ?_⟩
  · have h : extract_coordinates_from_url
        "https://www.google.com/maps/place/X/@40.7128,-74.0060,15z/data" =
        (some (mkRat 407128 10000), some (-(mkRat 740060 10000))) := by decide
    rw [h]
    simp only [Prod.mk.injEq, Option.some.injEq]
    constructor
    · norm_num [mkRat, Rat.normalize]
    · norm_num [mkRat, Rat.normalize]
  intro url
  simp only [extract_coordinates_from_url]
  split <;> try split
  all_goals first
  | exact Or.inl rfl
  | exact Or.inr ⟨_, _, rfl⟩

/-- C2 (evaluation at the failing input): field extraction does NOT
default when a detail-panel element is absent.  An absent address, website
or phone element makes the corresponding `inner_text()` call raise
(`Except.error`), abandoning extraction of the remaining fields — and no
handler in the harvest loop catches it.  Only a present-but-empty element
defaults to its `"No X"` sentinel (last conjunct). -/
theorem extract_absent_element_raises :
    extractBusiness
        { addressElem := none, websiteElem := some "w", phoneElem := some "p",
          avgElem := some (some "4.5"), countElem := some "3" } =
      Except.error () ∧
    extractBusiness
        { addressElem := some "a", websiteElem := none, phoneElem := some "p",
          avgElem := some (some "4.5"), countElem := some "3" } =
      Except.error () ∧
    extractBusiness
        { addressElem := some "a", websiteElem := some "w", phoneElem := none,
          avgElem := some (some "4.5"), countElem := some "3" } =
      Except.error () ∧
    extractBusiness
        { addressElem := some "", websiteElem := some "", phoneElem := some "",
          avgElem := some none, countElem := some "" } =
      Except.ok
        { name := some "Unknown", address := "No Address",
          website := "No Website", phone_number := "No Phone" } :=
  ⟨rfl, rfl, rfl, rfl⟩

/-- C10: the deduplication key is computed from the already-defaulted
field values, so any two fully-defaulted records share one identity key;
once one fully-defaulted record has been accepted, every later
fully-defaulted record — after arbitrarily many intervening offers and
regardless of its other fields — is rejected by `add_business` with the
store unchanged. -/
theorem defaulted_records_collide :
    (∀ b1 b2 : Business, fullyDefaulted b1 → fullyDefaulted b2 →
      identityKey b1 = identityKey b2) ∧
    (∀ bl bs b1 b2, fullyDefaulted b1 → fullyDefaulted b2 →
      (add_business bl b1).1 = true →
      add_business (runAddsFrom (add_business bl b1).2 bs) b2 =
        (false, runAddsFrom (add_business bl b1).2 bs)) := by
  have hkey : ∀ b1 b2 : Business, fullyDefaulted b1 → fullyDefaulted b2 →
      identityKey b1 = identityKey b2 := by
    intro b1 b2 h1 h2
    simp [identityKey, h1.1, h1.2.1, h1.2.2, h2.1, h2.2.1, h2.2.2]
  refine ⟨hkey, ?_⟩
  intro bl bs b1 b2 h1 h2 _
  apply add_business_mem
  rw [hkey b2 b1 h2 h1, seen_runAddsFrom]
  left
  rw [seen_add_business]
  left
  rfl

/-- Witness for C10: two fully-defaulted records that differ in their
review counts and come with an unrelated record in between; the second one
is rejected. -/
theorem defaulted_records_collide_witness :
    fullyDefaulted { name := some "Unknown", reviews_count := 5 } ∧
    fullyDefaulted { name := some "Unknown", reviews_count := 7 } ∧
    (add_business emptyBusinessList { name := some "Unknown", reviews_count := 5 }).1 = true ∧
    add_business
        (runAddsFrom (add_business emptyBusinessList
          { name := some "Unknown", reviews_count := 5 }).2 [{ name := some "A" }])
        { name := some "Unknown", reviews_count := 7 } =
      (false, runAddsFrom (add_business emptyBusinessList
          { name := some "Unknown", reviews_count := 5 }).2 [{ name := some "A" }]) := by
  refine ⟨⟨rfl, rfl, rfl⟩, ⟨rfl, rfl, rfl⟩, by decide, ?_⟩
  exact defaulted_records_collide.2 emptyBusinessList [{ name := some "A" }] _ _
    ⟨rfl, rfl, rfl⟩ ⟨rfl, rfl, rfl⟩ (by decide)

theorem flushSeq_some (batches : List (List Business)) (content : List CsvLine) :
    flushSeq batches (some content) =
      some (content ++ (batches.map (fun bs => bs.map CsvLine.row)).flatten) := by
  induction batches generalizing content with
  | nil => simp [flushSeq]
  | cons b bs ih =>
    have hstep : flushSeq (b :: bs) (some content) =
        flushSeq bs (some (save_to_csv (some content) b true)) := rfl
    rw [hstep, ih]
    simp [save_to_csv, List.append_assoc]

/-- C9: for a destination file that does not exist yet, the creating
append-mode write emits the header followed by its rows; every append to
an existing file emits headerless rows only; hence across any non-empty
sequence of append-mode `save_to_csv` calls to the same file the header
appears exactly once, at the top, written by the call that created the
file. -/
theorem csv_header_exactly_once :
    (∀ rows, save_to_csv none rows true = CsvLine.header :: rows.map CsvLine.row) ∧
    (∀ content rows, save_to_csv (some content) rows true =
      content ++ rows.map CsvLine.row) ∧
    (∀ batches : List (List Business), batches ≠ [] →
      flushSeq batches none = some (CsvLine.header :: batches.flatten.map CsvLine.row)) := by
  refine ⟨fun rows => rfl, fun content rows => rfl, ?_⟩
  intro batches hne
  match batches with
  | b :: bs =>
    have hstep : flushSeq (b :: bs) none =
        flushSeq bs (some (CsvLine.header :: b.map CsvLine.row)) := rfl
    rw [hstep, flushSeq_some]
    simp [List.map_flatten]

/-- Witness for C9: one record flushed, then an empty flush; the file
holds exactly one header line followed by the record's row. -/
theorem csv_header_exactly_once_witness :
    ([[({} : Business)], []] : List (List Business)) ≠ [] ∧
    flushSeq [[({} : Business)], []] none =
      some [CsvLine.header, CsvLine.row {}] := by
  refine ⟨by decide, ?_⟩
  have h := csv_header_exactly_once.2.2 [[({} : Business)], []] (by decide)
  simpa using h

theorem extract_vDup : extractBusiness vDup = Except.ok bDup := rfl

theorem harvest_dup (bl : BusinessList)
    (hmem : identityKey bDup ∈ bl.seen_businesses) :
    harvestListings 2 [vDup] 1 bl = Except.ok (1, bl) := by
  have h1 : ¬ (2 ≤ 1) := by decide
  simp only [harvestListings, if_neg h1, extract_vDup, add_business_mem bl bDup hmem]
  rfl

theorem pagLoop_stagnant_stuck :
    ∀ fuel i bl, identityKey bDup ∈ bl.seen_businesses →
      pagLoop 2 stagnantPanel fuel i 1 bl = none := by
  intro fuel
  induction fuel with
  | zero => intro i bl _; rfl
  | succ f ih =>
    intro i bl hmem
    have h2 : ¬ (2 ≤ 1) := by decide
    have hpanel1 : (stagnantPanel i).1 = [vDup] := rfl
    have hpanel2 : (stagnantPanel i).2 = false := rfl
    simp only [pagLoop, if_neg h2, hpanel1, hpanel2, harvest_dup bl hmem,
      Bool.false_eq_true, if_false]
    exact ih (i + 1) bl hmem

/-- C3 counterexample: with a results panel that forever shows one
duplicate listing and never shows the end-of-list banner (`stagnantPanel`)
and a quota of 2, the scroll loop completes within no number of
iterations at all — the listing count stagnates on every scroll, yet the
loop neither stops after one re-attempt nor ever stops, because the code
has no stagnation fallback. -/
theorem pagination_stagnation_counterexample :
    ¬ ∃ fuel, (pagLoop 2 stagnantPanel fuel 0 0 emptyBusinessList).isSome = true := by
  rintro ⟨fuel, hsome⟩
  have hnone : ∀ f, pagLoop 2 stagnantPanel f 0 0 emptyBusinessList = none := by
    intro f
    match f with
    | 0 => rfl
    | f + 1 =>
      have hfirst : pagLoop 2 stagnantPanel (f + 1) 0 0 emptyBusinessList =
          pagLoop 2 stagnantPanel f 1 1 (add_business emptyBusinessList bDup).2 := rfl
      rw [hfirst]
      exact pagLoop_stagnant_stuck f 1 _ (by decide)
  rw [hnone fuel] at hsome
  exact Bool.noConfusion hsome

/-- C3 (amended): the scroll loop stops only because the quota is met or
the end-of-list banner became visible after a scroll: whenever it
terminates normally, either the final scraped count has reached the quota
or the banner was visible at some iteration.  There is no
stagnation-fallback exit (and the counterexample shows the loop runs
forever when neither condition ever holds). -/
theorem pagination_terminates_only_on_quota_or_end :
    ∀ fuel quota pag i scraped bl scraped' bl',
      pagLoop quota pag fuel i scraped bl = some (Except.ok (scraped', bl')) →
      quota ≤ scraped' ∨ ∃ j, (pag j).2 = true := by
  intro fuel
  induction fuel with
  | zero => intro quota pag i scraped bl s' bl' h; exact Option.noConfusion h
  | succ f ih =>
    intro quota pag i scraped bl s' bl' h
    by_cases hq : quota ≤ scraped
    · simp only [pagLoop, if_pos hq, Option.some.injEq, Except.ok.injEq,
        Prod.mk.injEq] at h
      exact Or.inl (h.1 ▸ hq)
    · simp only [pagLoop, if_neg hq] at h
      rcases hh : harvestListings quota (pag i).1 scraped bl with e | ⟨s2, bl2⟩
      · rw [hh] at h
        simp at h
      · rw [hh] at h
        by_cases hv : (pag i).2
        · exact Or.inr ⟨i, hv⟩
        · simp only [hv, Bool.false_eq_true, if_false] at h
          exact ih quota pag (i + 1) s2 bl2 s' bl' h

/-- Witness for the amended C3 at a concrete input: a panel whose
end-of-list banner is visible immediately makes the loop stop, and the
theorem's disjunction holds there. -/
theorem pagination_terminates_only_on_quota_or_end_witness :
    pagLoop 5 pagEndsNow 1 0 0 emptyBusinessList =
      some (Except.ok (0, emptyBusinessList)) ∧
    (5 ≤ 0 ∨ ∃ j, (pagEndsNow j).2 = true) := by
  refine ⟨rfl, ?_⟩
  exact pagination_terminates_only_on_quota_or_end 1 5 pagEndsNow 0 0
    emptyBusinessList 0 emptyBusinessList rfl

theorem chooseLoc_mem (oracle : Nat → Nat) (k : Nat) (x : Location)
    (rest : List Location) : chooseLoc oracle k x rest ∈ x :: rest :=
  List.get_mem _ _ _

theorem removeFirst_perm (v : Location) :
    ∀ l : List Location, v ∈ l → l.Perm (v :: removeFirst l v) := by
  intro l
  induction l with
  | nil => intro h; exact absurd h (List.not_mem_nil v)
  | cons x xs ih =>
    intro hmem
    by_cases hx : x = v
    · subst hx
      simp only [removeFirst, if_pos rfl]
      exact List.Perm.refl _
    · have hv : v ∈ xs := by
        rcases List.mem_cons.mp hmem with h | h
        · exact absurd h.symm hx
        · exact h
      simp only [removeFirst, if_neg hx]
      exact ((ih hv).cons x).trans (List.Perm.swap v x _)

theorem drawn_pool_perm :
    ∀ outerFuel search oracle quota fuel pool scraped bl k drawn r,
      categoryLoop search oracle quota fuel outerFuel pool scraped bl k drawn =
        some (Except.ok r) →
      (r.drawn ++ r.pool).Perm (drawn ++ pool) ∧
        (quota ≤ r.scraped ∨ r.pool = []) := by
  intro outerFuel
  induction outerFuel with
  | zero =>
    intro search oracle quota fuel pool scraped bl k drawn r h
    exact Option.noConfusion h
  | succ n ih =>
    intro search oracle quota fuel pool scraped bl k drawn r h
    cases pool with
    | nil =>
      simp only [categoryLoop, ite_self] at h
      have h' : (⟨scraped, bl, [], drawn, k⟩ : CatResult) = r :=
        Except.ok.inj (Option.some.inj h)
      subst h'
      exact ⟨List.Perm.refl _, Or.inr rfl⟩
    | cons x rest =>
      simp only [categoryLoop] at h
      by_cases hq : quota ≤ scraped
      · rw [if_pos hq] at h
        have h' : (⟨scraped, bl, x :: rest, drawn, k⟩ : CatResult) = r :=
          Except.ok.inj (Option.some.inj h)
        subst h'
        exact ⟨List.Perm.refl _, Or.inl hq⟩
      · rw [if_neg hq] at h
        have hmem : chooseLoc oracle k x rest ∈ x :: rest :=
          chooseLoc_mem oracle k x rest
        have hperm :
            ((drawn ++ [chooseLoc oracle k x rest]) ++
              removeFirst (x :: rest) (chooseLoc oracle k x rest)).Perm
              (drawn ++ x :: rest) := by
          rw [List.append_assoc, List.singleton_append]
          exact List.Perm.append_left drawn (removeFirst_perm _ _ hmem).symm
        rcases hs : search (chooseLoc oracle k x rest) with _ | ⟨count, pag⟩
        · rw [hs] at h
          obtain ⟨hp, hd⟩ := ih search oracle quota fuel _ _ _ _ _ _ h
          exact ⟨hp.trans hperm, hd⟩
        · rw [hs] at h
          cases count with
          | zero =>
            obtain ⟨hp, hd⟩ := ih search oracle quota fuel _ _ _ _ _ _ h
            exact ⟨hp.trans hperm, hd⟩
          | succ m =>
            replace h :
                (match pagLoop quota pag fuel 0 scraped bl with
                  | none => none
                  | some (Except.error e) => some (Except.error e)
                  | some (Except.ok (scraped', bl')) =>
                    categoryLoop search oracle quota fuel n
                      (removeFirst (x :: rest) (chooseLoc oracle k x rest))
                      scraped' bl' (k + 1)
                      (drawn ++ [chooseLoc oracle k x rest])) =
                  some (Except.ok r) := h
            rcases hpl : pagLoop quota pag fuel 0 scraped bl with _ | es
            · rw [hpl] at h
              exact Option.noConfusion h
            · rcases es with e | ⟨s2, bl2⟩
              · rw [hpl] at h
                exact Except.noConfusion (Option.some.inj h)
              · rw [hpl] at h
                obtain ⟨hp, hd⟩ := ih search oracle quota fuel _ _ _ _ _ _ h
                exact ⟨hp.trans hperm, hd⟩

/-- C8: the explorer draws locations without replacement — when the
per-category loop completes, the drawn locations together with the
remaining pool are a permutation of the starting pool, so each pool entry
is drawn at most once (second conjunct: as multisets, drawn locations plus
remaining pool equal the original pool) — and the loop stops
exactly when the quota is met or the pool becomes empty: on completion
the quota is met or no locations remain (exhaustion), and conversely when
the quota is already met or the pool is empty the loop stops immediately,
changing nothing. -/
theorem explorer_without_replacement :
    (∀ search oracle quota fuel outerFuel pool scraped bl k drawn r,
      categoryLoop search oracle quota fuel outerFuel pool scraped bl k drawn =
        some (Except.ok r) →
      (r.drawn ++ r.pool).Perm (drawn ++ pool) ∧
        (quota ≤ r.scraped ∨ r.pool = [])) ∧
    (∀ search oracle quota fuel outerFuel pool scraped bl k r,
      categoryLoop search oracle quota fuel outerFuel pool scraped bl k [] =
        some (Except.ok r) →
      (r.drawn : Multiset Location) + (r.pool : Multiset Location) =
        (pool : Multiset Location)) ∧
    (∀ search oracle quota fuel outerFuel pool scraped bl k drawn,
      (quota ≤ scraped ∨ pool = []) →
      categoryLoop search oracle quota fuel (outerFuel + 1) pool scraped bl k drawn =
        some (Except.ok ⟨scraped, bl, pool, drawn, k⟩)) := by
  refine ⟨fun search oracle quota fuel outerFuel pool scraped bl k drawn r h =>
    drawn_pool_perm outerFuel search oracle quota fuel pool scraped bl k drawn r h,
    ?_, ?_⟩
  · intro search oracle quota fuel outerFuel pool scraped bl k r h
    have hp :=
      (drawn_pool_perm outerFuel search oracle quota fuel pool scraped bl k [] r h).1
    have hm := Multiset.coe_eq_coe.mpr hp
    rw [List.nil_append] at hm
    rw [Multiset.coe_add]
    exact hm
  · intro search oracle quota fuel outerFuel pool scraped bl k drawn hstop
    rcases hstop with hq | hpool
    · simp only [categoryLoop, if_pos hq]
    · subst hpool
      by_cases hq : quota ≤ scraped
      · simp only [categoryLoop, if_pos hq]
      · simp only [categoryLoop, if_neg hq]

/-- Witness for C8 at a concrete input: quota already met (quota 0), so
the loop stops at once with the pool untouched, and the permutation and
stop-condition conclusions hold there. -/
theorem explorer_without_replacement_witness :
    categoryLoop (fun _ => SearchOutcome.timeout) (fun _ => 0) 0 1 1
        [("Austin", "TX")] 0 emptyBusinessList 0 [] =
      some (Except.ok ⟨0, emptyBusinessList, [("Austin", "TX")], [], 0⟩) ∧
    (((([] ++ [("Austin", "TX")]) : List Location).Perm
        ([] ++ [("Austin", "TX")])) ∧
      (0 ≤ 0 ∨ ([("Austin", "TX")] : List Location) = [])) := by
  have h2 := explorer_without_replacement.2.2 (fun _ => SearchOutcome.timeout)
    (fun _ => 0) 0 1 0 [("Austin", "TX")] 0 emptyBusinessList 0 []
    (Or.inl (Nat.le_refl 0))
  exact ⟨h2, explorer_without_replacement.1 (fun _ => SearchOutcome.timeout)
    (fun _ => 0) 0 1 1 [("Austin", "TX")] 0 emptyBusinessList 0 [] _ h2⟩

/-- C4 counterexample: a single run in which the search phase succeeds but
the focused listing's detail-panel reads find no element — the resulting
raised timeout is caught by no handler in the harvest loop, and the whole
run aborts with the error instead of continuing with the next location or
category. -/
theorem run_aborted_by_harvest_read_counterexample :
    scrapeRun (fun _ _ => SearchOutcome.results 1 (fun _ => ([vBroken], false)))
      (fun _ => 0) 1 3 3 [("Austin", "TX")] ["Gyms"] emptyBusinessList none 0 =
      some (Except.error ()) := rfl

theorem harvest_no_error (quota : Nat) :
    ∀ views scraped bl, (∀ v ∈ views, (extractBusiness v).isOk = true) →
      ∃ s' bl', harvestListings quota views scraped bl = Except.ok (s', bl') := by
  intro views
  induction views with
  | nil => intro scraped bl _; exact ⟨scraped, bl, rfl⟩
  | cons v rest ih =>
    intro scraped bl hv
    by_cases hq : quota ≤ scraped
    · exact ⟨scraped, bl, by simp [harvestListings, if_pos hq]⟩
    · have hok : (extractBusiness v).isOk = true := hv v (List.mem_cons_self v rest)
      rcases hex : extractBusiness v with e | b
      · rw [hex] at hok
        simp [Except.isOk, Except.toBool] at hok
      · obtain ⟨s', bl', hres⟩ := ih
          (if (add_business bl b).1 then scraped + 1 else scraped)
          (add_business bl b).2 (fun w hw => hv w (List.mem_cons_of_mem v hw))
        refine ⟨s', bl', ?_⟩
        simp only [harvestListings, if_neg hq, hex]
        exact hres

theorem pagLoop_no_error (quota : Nat) (pag : Nat → List ListingView × Bool)
    (hpag : ∀ i v, v ∈ (pag i).1 → (extractBusiness v).isOk = true) :
    ∀ fuel i scraped bl e, pagLoop quota pag fuel i scraped bl ≠
      some (Except.error e) := by
  intro fuel
  induction fuel with
  | zero => intro i scraped bl e h; exact Option.noConfusion h
  | succ f ih =>
    intro i scraped bl e h
    simp only [pagLoop] at h
    by_cases hq : quota ≤ scraped
    · rw [if_pos hq] at h
      exact Except.noConfusion (Option.some.inj h)
    · rw [if_neg hq] at h
      obtain ⟨s', bl', hres⟩ := harvest_no_error quota (pag i).1 scraped bl (hpag i)
      rw [hres] at h
      replace h : (if (pag i).2 = true then some (Except.ok (s', bl'))
          else pagLoop quota pag f (i + 1) s' bl') = some (Except.error e) := h
      by_cases hv : (pag i).2
      · rw [if_pos hv] at h
        exact Except.noConfusion (Option.some.inj h)
      · rw [if_neg hv] at h
        exact ih (i + 1) s' bl' e h

theorem categoryLoop_no_error (search : Location → SearchOutcome)
    (hsearch : ExtractableViews search) :
    ∀ outerFuel oracle quota fuel pool scraped bl k drawn e,
      categoryLoop search oracle quota fuel outerFuel pool scraped bl k drawn ≠
        some (Except.error e) := by
  intro outerFuel
  induction outerFuel with
  | zero =>
    intro oracle quota fuel pool scraped bl k drawn e h
    exact Option.noConfusion h
  | succ n ih =>
    intro oracle quota fuel pool scraped bl k drawn e h
    cases pool with
    | nil =>
      simp only [categoryLoop, ite_self] at h
      exact Except.noConfusion (Option.some.inj h)
    | cons x rest =>
      simp only [categoryLoop] at h
      by_cases hq : quota ≤ scraped
      · rw [if_pos hq] at h
        exact Except.noConfusion (Option.some.inj h)
      · rw [if_neg hq] at h
        rcases hs : search (chooseLoc oracle k x rest) with _ | ⟨count, pag⟩
        · rw [hs] at h
          exact ih oracle quota fuel _ scraped bl (k + 1) _ e h
        · rw [hs] at h
          cases count with
          | zero => exact ih oracle quota fuel _ scraped bl (k + 1) _ e h
          | succ m =>
            replace h :
                (match pagLoop quota pag fuel 0 scraped bl with
                  | none => none
                  | some (Except.error e) => some (Except.error e)
                  | some (Except.ok (scraped', bl')) =>
                    categoryLoop search oracle quota fuel n
                      (removeFirst (x :: rest) (chooseLoc oracle k x rest))
                      scraped' bl' (k + 1)
                      (drawn ++ [chooseLoc oracle k x rest])) =
                  some (Except.error e) := h
            have hpag : ∀ i v, v ∈ (pag i).1 → (extractBusiness v).isOk = true :=
              fun i v hv =>
                hsearch (chooseLoc oracle k x rest) (m + 1) pag i v hs hv
            rcases hpl : pagLoop quota pag fuel 0 scraped bl with _ | es
            · rw [hpl] at h
              exact Option.noConfusion h
            · rcases es with e2 | ⟨s2, bl2⟩
              · exact pagLoop_no_error quota pag hpag fuel 0 scraped bl e2 hpl
              · rw [hpl] at h
                exact ih oracle quota fuel _ s2 bl2 (k + 1) _ e h

theorem scrapeRun_no_error (env : String → Location → SearchOutcome)
    (henv : ∀ cat, ExtractableViews (env cat)) :
    ∀ cats oracle quota fuel outerFuel pool0 bl fs k e,
      scrapeRun env oracle quota fuel outerFuel pool0 cats bl fs k ≠
        some (Except.error e) := by
  intro cats
  induction cats with
  | nil =>
    intro oracle quota fuel outerFuel pool0 bl fs k e h
    exact Except.noConfusion (Option.some.inj h)
  | cons cat cats ih =>
    intro oracle quota fuel outerFuel pool0 bl fs k e h
    simp only [scrapeRun] at h
    rcases hc : categoryLoop (env cat) oracle quota fuel outerFuel pool0 0 bl k []
      with _ | ec
    · rw [hc] at h
      exact Option.noConfusion h
    · rcases ec with e2 | r
      · exact categoryLoop_no_error (env cat) (henv cat) outerFuel oracle quota
          fuel pool0 0 bl k [] e2 hc
      · rw [hc] at h
        replace h :
            (if r.store.business_list = [] then
              scrapeRun env oracle quota fuel outerFuel pool0 cats r.store fs r.k
            else
              scrapeRun env oracle quota fuel outerFuel pool0 cats
                { r.store with business_list := [] }
                (some (save_to_csv fs r.store.business_list true)) r.k) =
              some (Except.error e) := h
        by_cases hbl : r.store.business_list = []
        · rw [if_pos hbl] at h
          exact ih oracle quota fuel outerFuel pool0 _ fs r.k e h
        · rw [if_neg hbl] at h
          exact ih oracle quota fuel outerFuel pool0 _ _ r.k e h

/-- C4 (amended): a timeout in the search phase (navigate, wait for the
search box, fill, press, wait for result anchors — the block guarded at
lines 104-112) abandons only the current location's task and the run
continues; no number of search-phase timeouts can abort the run — for
every environment whose focused-listing reads all succeed, the run never
returns an error, whatever its search timeouts.  A timeout of a
harvest-phase read, however, is uncaught and aborts the whole run (see the
counterexample). -/
theorem search_timeouts_never_abort_run :
    ∀ env oracle quota fuel outerFuel pool0 cats bl fs k e,
      (∀ cat, ExtractableViews (env cat)) →
      scrapeRun env oracle quota fuel outerFuel pool0 cats bl fs k ≠
        some (Except.error e) := by
  intro env oracle quota fuel outerFuel pool0 cats bl fs k e henv
  exact scrapeRun_no_error env henv cats oracle quota fuel outerFuel pool0 bl fs k e

/-- Witness for the amended C4 at a concrete input: an environment in
which every search attempt times out; the run completes normally with an
empty result (first conjunct, the timeouts only skipped locations) and is
not aborted (second conjunct via the theorem). -/
theorem search_timeouts_never_abort_run_witness :
    scrapeRun (fun _ _ => SearchOutcome.timeout) (fun _ => 0) 1 2 3
        [("Austin", "TX"), ("Dallas", "TX")] ["Gyms"] emptyBusinessList none 0 =
      some (Except.ok ([], none)) ∧
    scrapeRun (fun _ _ => SearchOutcome.timeout) (fun _ => 0) 1 2 3
        [("Austin", "TX"), ("Dallas", "TX")] ["Gyms"] emptyBusinessList none 0 ≠
      some (Except.error ()) := by
  refine ⟨rfl, ?_⟩
  exact search_timeouts_never_abort_run (fun _ _ => SearchOutcome.timeout)
    (fun _ => 0) 1 2 3 [("Austin", "TX"), ("Dallas", "TX")] ["Gyms"]
    emptyBusinessList none 0 ()
    (fun _ => fun _ _ _ _ _ h1 _ => nomatch h1)

/-- C5 (evaluation at the failing input): a run with one category, quota
one, one location and a panel showing one extractable listing accepts
exactly one record and flushes it to the CSV file — but the value the
orchestrator returns is the EMPTY record list, because line 159 clears the
in-memory buffer after the per-category flush and line 162 builds the
returned dataframe from that cleared buffer.  The full deduplicated
record set survives only in the CSV file, never in the return value. -/
theorem run_returns_empty_table :
    scrapeRun (fun _ _ => SearchOutcome.results 1 (fun _ => ([vDup], true)))
      (fun _ => 0) 1 3 3 [("Austin", "TX")] ["Gyms"] emptyBusinessList none 0 =
      some (Except.ok ([], some [CsvLine.header, CsvLine.row bDup])) := rfl
